import Mathlib

/-!
Shallow embedding of the Zendesk Help Center backup/restore tool
(`src/config.py`, `src/backup.py`, `src/zendesk_api.py`).

Remote HTTP calls are modelled by explicit outcome values supplied as
arguments (an oracle per call site): a call either raises a transport
exception or returns an HTTP status (and, for list endpoints, a parsed
body).  Python dictionaries that map old ids to new ids are modelled as
association lists with first-match lookup; during one pass each key is
assigned at most once, so the two agree on the runs the program produces.
Python truthiness on ids (`if not section_id:`) is modelled explicitly:
`None` and `0` are falsy.
-/

namespace ZdHcBu

/-- Association-list lookup with first-match semantics; models Python
`key in d` / `d[key]` for the id-mapping dicts. -/
def lookupMap : List (Nat × Nat) → Nat → Option Nat
  | [], _ => none
  | (k, v) :: rest, key => if k = key then some v else lookupMap rest key

/-- Python truthiness of an optional integer id: `None` and `0` are falsy. -/
def truthyId : Option Nat → Bool
  | none => false
  | some n => n != 0

/-- ASCII lower-casing of one character, the effect of Python's
`str.lower` on the ASCII names compared here. -/
def charLower (c : Char) : Char :=
  if 65 ≤ c.toNat ∧ c.toNat ≤ 90 then Char.ofNat (c.toNat + 32) else c

/-- Lower-cased character sequence of a string. -/
def strLower (s : String) : List Char :=
  s.data.map charLower

/-- Case-insensitive name equality, as the source compares
`a.lower() == b.lower()`. -/
def lowerEq (a b : String) : Bool :=
  strLower a == strLower b

/-- An entity (category or section) already existing on the target,
as returned by the list endpoints: id and display name. -/
structure ExEntity where
  id : Nat
  name : String
  deriving DecidableEq, Repr

/-- A category from the local snapshot (`structure/categories.json`). -/
structure SnapCat where
  id : Nat
  name : String
  deriving DecidableEq, Repr

/-- A section from the local snapshot (`structure/sections.json`);
`category_id` is optional (`section.get('category_id')`). -/
structure SnapSec where
  id : Nat
  name : String
  category_id : Option Nat
  deriving DecidableEq, Repr

/-- Outcome of one `requests.post` create call: success with the new
entity id, a non-success HTTP status, or a transport exception. -/
inductive CreateResult where
  | ok (newId : Nat)
  | httpFail
  | exn
  deriving DecidableEq, Repr

/-- First existing target entity whose name matches case-insensitively;
models the `for existing in existing_...: if existing['name'].lower() ==
name.lower()` scan in `restore_structure`. -/
def findExisting (existing : List ExEntity) (name : String) : Option ExEntity :=
  existing.find? (fun e => lowerEq e.name name)

/-- Categories pass of `restore_structure` (src/zendesk_api.py lines
335-367): for each snapshot category, map to a case-insensitive name
match if one exists (no write); otherwise attempt a create.  A create
with a non-success status is logged and skipped; a transport exception
propagates to the pass-level `except`, which logs and abandons the rest
of the categories loop.  Returns the accumulated old-to-new id map and
the list of snapshot ids for which a create call was attempted. -/
def restoreCategories (snapshot : List SnapCat) (existing : List ExEntity)
    (createOutcome : SnapCat → CreateResult) : List (Nat × Nat) × List Nat :=
  match snapshot with
  | [] => ([], [])
  | c :: rest =>
    match findExisting existing c.name with
    | some ex =>
      let r := restoreCategories rest existing createOutcome
      ((c.id, ex.id) :: r.1, r.2)
    | none =>
      match createOutcome c with
      | .ok newId =>
        let r := restoreCategories rest existing createOutcome
        ((c.id, newId) :: r.1, c.id :: r.2)
      | .httpFail =>
        let r := restoreCategories rest existing createOutcome
        (r.1, c.id :: r.2)
      | .exn => ([], [c.id])

/-- Parent-category resolution for one snapshot section
(src/zendesk_api.py lines 395-401): the category map first, else the
first existing target category, else nothing. -/
def resolveParent (categoryIdMap : List (Nat × Nat)) (existingCats : List ExEntity)
    (oldCategoryId : Option Nat) : Option Nat :=
  match oldCategoryId with
  | some c =>
    match lookupMap categoryIdMap c with
    | some n => some n
    | none => (existingCats.head?).map (fun e => e.id)
  | none => (existingCats.head?).map (fun e => e.id)

/-- Sections pass of `restore_structure` (src/zendesk_api.py lines
390-435): resolve the parent category, then map to a case-insensitive
name match if one exists (no write); otherwise create under the resolved
parent when that parent id is truthy, else skip.  A create with a
non-success status is skipped; a transport exception abandons the rest
of the sections loop.  Returns the section id map and the list of
(section old id, parent id used) pairs for attempted creates. -/
def restoreSections (snapshot : List SnapSec) (existingSecs : List ExEntity)
    (categoryIdMap : List (Nat × Nat)) (existingCats : List ExEntity)
    (createOutcome : SnapSec → CreateResult) :
    List (Nat × Nat) × List (Nat × Nat) :=
  match snapshot with
  | [] => ([], [])
  | s :: rest =>
    let parent := resolveParent categoryIdMap existingCats s.category_id
    match findExisting existingSecs s.name with
    | some ex =>
      let r := restoreSections rest existingSecs categoryIdMap existingCats createOutcome
      ((s.id, ex.id) :: r.1, r.2)
    | none =>
      if truthyId parent then
        match createOutcome s with
        | .ok newId =>
          let r := restoreSections rest existingSecs categoryIdMap existingCats createOutcome
          ((s.id, newId) :: r.1, (s.id, parent.getD 0) :: r.2)
        | .httpFail =>
          let r := restoreSections rest existingSecs categoryIdMap existingCats createOutcome
          (r.1, (s.id, parent.getD 0) :: r.2)
        | .exn => ([], [(s.id, parent.getD 0)])
      else
        let r := restoreSections rest existingSecs categoryIdMap existingCats createOutcome
        r

/-- JSON value in a request payload (only the shapes this payload uses). -/
inductive JVal where
  | s (v : String)
  | b (v : Bool)
  | n (v : Nat)
  deriving DecidableEq, Repr

/-- Metadata loaded from an article's `{id}.json` sidecar file; every
field is read with `.get`, so each is optional. -/
structure ArticleMeta where
  section_id : Option Nat
  title : Option String
  locale : Option String
  deriving DecidableEq, Repr

/-- The `article_payload` dict built in `restore_article`
(src/zendesk_api.py lines 473-485): title, body, locale, draft always
False, promoted always True, then the optional permission-group and
user-segment ids. -/
def articlePayloadFields (title content locale : String)
    (permissionGroupId userSegmentId : Option Nat) : List (String × JVal) :=
  [("title", JVal.s title), ("body", JVal.s content), ("locale", JVal.s locale),
   ("draft", JVal.b false), ("promoted", JVal.b true)]
  ++ (match permissionGroupId with
      | some p => [("permission_group_id", JVal.n p)]
      | none => [])
  ++ (match userSegmentId with
      | some u => [("user_segment_id", JVal.n u)]
      | none => [])

/-- One remote request issued by `restore_article`, identified by its
endpoint; create requests carry the section id that appears in the URL,
update and create requests carry the article payload. -/
inductive Request where
  | checkStd (articleId : Nat)
  | checkGuide (articleId : Nat)
  | updateStd (articleId : Nat) (payload : List (String × JVal))
  | updateGuide (articleId : Nat) (payload : List (String × JVal))
  | createStd (locale : String) (sectionId : Nat) (payload : List (String × JVal))
  | createGuide (sectionId : Nat) (payload : List (String × JVal))
  deriving DecidableEq, Repr

/-- The section id in a create request's URL, if the request is a create. -/
def Request.createSectionId : Request → Option Nat
  | .createStd _ sid _ => some sid
  | .createGuide sid _ => some sid
  | _ => none

/-- The payload a request carries, if it is an update or a create. -/
def Request.payload? : Request → Option (List (String × JVal))
  | .updateStd _ p => some p
  | .updateGuide _ p => some p
  | .createStd _ _ p => some p
  | .createGuide _ p => some p
  | _ => none

/-- True exactly for the two update requests. -/
def Request.isUpdate : Request → Bool
  | .updateStd _ _ => true
  | .updateGuide _ _ => true
  | _ => false

/-- Outcome of one plain HTTP request: a status code or an exception. -/
inductive ReqOutcome where
  | resp (status : Nat)
  | exn
  deriving DecidableEq, Repr

/-- The remote responses `restore_article` can observe, one per call
site, in program order. -/
structure ArticleWorld where
  checkStd : ReqOutcome
  checkGuide : ReqOutcome
  updateStd : ReqOutcome
  updateGuide : ReqOutcome
  createStd : ReqOutcome
  createGuide : ReqOutcome
  deriving DecidableEq, Repr

/-- Section resolution in `restore_article` (src/zendesk_api.py lines
451-457): if `section_id_map` is truthy (present and non-empty) and the
metadata section id is one of its keys, use the mapped id; otherwise
fall back to `valid_section_id`. -/
def pyResolveSection (metaSectionId : Option Nat)
    (sectionIdMap : Option (List (Nat × Nat)))
    (validSectionId : Option Nat) : Option Nat :=
  match sectionIdMap with
  | some m =>
    if m.isEmpty then validSectionId
    else
      match metaSectionId with
      | some s =>
        match lookupMap m s with
        | some t => some t
        | none => validSectionId
      | none => validSectionId
  | none => validSectionId

/-- Update branch of `restore_article` (src/zendesk_api.py lines
500-519): PUT on the standard path, on non-200 retry the guide path;
an exception anywhere is caught and gives False. -/
def tryUpdate (articleId : Nat) (payload : List (String × JVal))
    (world : ArticleWorld) (trace : List Request) : Bool × List Request :=
  match world.updateStd with
  | .exn => (false, trace ++ [Request.updateStd articleId payload])
  | .resp c1 =>
    if c1 = 200 then (true, trace ++ [Request.updateStd articleId payload])
    else
      match world.updateGuide with
      | .exn => (false, trace ++ [Request.updateStd articleId payload,
                                  Request.updateGuide articleId payload])
      | .resp c2 =>
        (decide (c2 = 200),
         trace ++ [Request.updateStd articleId payload,
                   Request.updateGuide articleId payload])

/-- Create branch of `restore_article` (src/zendesk_api.py lines
521-549): POST under the resolved section on the standard path, on
non-success retry the guide path; an exception anywhere gives False. -/
def tryCreate (locale : String) (sectionId : Nat) (payload : List (String × JVal))
    (world : ArticleWorld) (trace : List Request) : Bool × List Request :=
  match world.createStd with
  | .exn => (false, trace ++ [Request.createStd locale sectionId payload])
  | .resp c1 =>
    if c1 = 200 ∨ c1 = 201 then
      (true, trace ++ [Request.createStd locale sectionId payload])
    else
      match world.createGuide with
      | .exn => (false, trace ++ [Request.createStd locale sectionId payload,
                                  Request.createGuide sectionId payload])
      | .resp c2 =>
        (decide (c2 = 200 ∨ c2 = 201),
         trace ++ [Request.createStd locale sectionId payload,
                   Request.createGuide sectionId payload])

/-- `restore_article` (src/zendesk_api.py lines 441-552): resolve the
target section, fail with no request if it is falsy, build the payload,
probe existence on the standard then guide path, then update or create.
Returns the success flag and the list of remote requests issued, in
order. -/
def restore_article (articleId : Nat) (content : String) (metadata : ArticleMeta)
    (validSectionId validPermissionGroupId validUserSegmentId : Option Nat)
    (language : String) (sectionIdMap : Option (List (Nat × Nat)))
    (world : ArticleWorld) : Bool × List Request :=
  let sectionId := pyResolveSection metadata.section_id sectionIdMap validSectionId
  if truthyId sectionId then
    let sid := sectionId.getD 0
    let title := metadata.title.getD ("Article " ++ toString articleId)
    let articleLocale := metadata.locale.getD language
    let payload := articlePayloadFields title content articleLocale
        validPermissionGroupId validUserSegmentId
    match world.checkStd with
    | .exn => (false, [Request.checkStd articleId])
    | .resp c1 =>
      if c1 = 200 then
        tryUpdate articleId payload world [Request.checkStd articleId]
      else
        match world.checkGuide with
        | .exn => (false, [Request.checkStd articleId, Request.checkGuide articleId])
        | .resp c2 =>
          if c2 = 200 then
            tryUpdate articleId payload world
              [Request.checkStd articleId, Request.checkGuide articleId]
          else
            tryCreate articleLocale sid payload world
              [Request.checkStd articleId, Request.checkGuide articleId]
  else (false, [])

/-- A user segment as returned by the user-segments list endpoints. -/
structure Segment where
  id : Nat
  name : String
  deriving DecidableEq, Repr

/-- Outcome of one list request: an exception, or a status code together
with the parsed entity list. -/
inductive ListOutcome where
  | resp (status : Nat) (segments : List Segment)
  | exn
  deriving DecidableEq, Repr

/-- Whether a segment's lowercased name is one of the preferred names
checked in `get_user_segments` (src/zendesk_api.py lines 108-110). -/
def isPreferredSegment (s : Segment) : Bool :=
  strLower s.name == "everyone".data || strLower s.name == "all".data ||
    strLower s.name == "signed-in users".data

/-- Selection among a non-empty segment list (src/zendesk_api.py lines
108-111): the first preferred segment if any, else the first segment.
On an empty list this yields 0, a case the callers guard against. -/
def pickSegment (segments : List Segment) : Nat :=
  match segments.find? isPreferredSegment with
  | some s => s.id
  | none => ((segments.head?).map (fun s => s.id)).getD 0

/-- `get_user_segments` (src/zendesk_api.py lines 87-132): try the
standard endpoint; on status 200 with a non-empty list pick a segment;
otherwise try the guide endpoint the same way; otherwise return the
configured default.  Any exception is caught and gives the default; an
exception on the standard request skips the guide request entirely. -/
def get_user_segments (std guide : ListOutcome)
    (defaultUserSegmentId : Option Nat) : Option Nat :=
  match std with
  | .exn => defaultUserSegmentId
  | .resp c1 segs1 =>
    if c1 = 200 ∧ ¬ segs1.isEmpty then some (pickSegment segs1)
    else
      match guide with
      | .exn => defaultUserSegmentId
      | .resp c2 segs2 =>
        if c2 = 200 ∧ ¬ segs2.isEmpty then some (pickSegment segs2)
        else defaultUserSegmentId

/-- What happens when the restore loop handles one article id: reading
the body file raises (caught by the per-article try), the metadata
sidecar is missing or unreadable (`get_article_metadata` returns None),
or `restore_article` runs and returns a success flag
(`restore_article` itself never raises). -/
inductive ArticleFate where
  | openExn
  | metaMissing
  | restored (success : Bool)
  deriving DecidableEq, Repr

/-- The per-article restore loop of `restore_articles` (src/backup.py
lines 189-228), threading the list of already-restored ids and of ids
for which `restore_article` was actually invoked. -/
def restoreLoop (failFast : Bool) (fate : Nat → ArticleFate) :
    List Nat → List Nat → List Nat → List Nat × List Nat
  | [], restored, attempted => (restored.reverse, attempted.reverse)
  | a :: rest, restored, attempted =>
    match fate a with
    | .openExn =>
      if failFast then (restored.reverse, attempted.reverse)
      else restoreLoop failFast fate rest restored attempted
    | .metaMissing =>
      if failFast then (restored.reverse, attempted.reverse)
      else restoreLoop failFast fate rest restored attempted
    | .restored true =>
      restoreLoop failFast fate rest (a :: restored) (a :: attempted)
    | .restored false =>
      if failFast then (restored.reverse, (a :: attempted).reverse)
      else restoreLoop failFast fate rest restored (a :: attempted)

/-- Queue-processing portion of `restore_articles` (src/backup.py lines
107-230), after structure reconciliation and fallback resolution (both
of which are inputs here, folded into `fate`): with an empty queue
return no restored ids; in fail-fast mode run the first article as a
probe and return an empty result on any probe failure (missing
metadata, restore returning False, or an exception); then loop over the
remaining queue.  Returns (restored ids, ids `restore_article` was
invoked on). -/
def restore_articles (articleIds : List Nat) (failFast : Bool)
    (fate : Nat → ArticleFate) : List Nat × List Nat :=
  match articleIds with
  | [] => ([], [])
  | a :: rest =>
    if failFast then
      match fate a with
      | .openExn => ([], [])
      | .metaMissing => ([], [])
      | .restored false => ([], [a])
      | .restored true => restoreLoop failFast fate rest [a] [a]
    else restoreLoop failFast fate (a :: rest) [] []

/-- One instance's credential triple, as in the config dicts. -/
structure Credentials where
  zendesk_api_token : String
  zendesk_user_email : String
  zendesk_subdomain : String
  deriving DecidableEq, Repr

/-- The trailing step of `load_config` (src/config.py lines 100-108):
each target credential still empty after file and environment handling
is replaced by the corresponding source credential. -/
def applyTargetDefaults (source target : Credentials) : Credentials :=
  { zendesk_api_token :=
      if target.zendesk_api_token = "" then source.zendesk_api_token
      else target.zendesk_api_token,
    zendesk_user_email :=
      if target.zendesk_user_email = "" then source.zendesk_user_email
      else target.zendesk_user_email,
    zendesk_subdomain :=
      if target.zendesk_subdomain = "" then source.zendesk_subdomain
      else target.zendesk_subdomain }

/-- Target-credential portion of `validate_config` for restore mode
(src/backup.py lines 33-47): valid exactly when all three target
credentials are non-empty. -/
def validateRestoreTarget (target : Credentials) : Bool :=
  target.zendesk_api_token != "" && target.zendesk_user_email != "" &&
    target.zendesk_subdomain != ""

/-!  Helper lemmas about the two passes of `restore_structure`. -/

/-- Expected map entry for one snapshot category: the first
case-insensitive name match wins, else a successful create's new id,
else nothing. -/
def categoryMapSpec (existing : List ExEntity) (f : SnapCat → CreateResult)
    (c : SnapCat) : Option Nat :=
  match findExisting existing c.name with
  | some ex => some ex.id
  | none =>
    match f c with
    | .ok n => some n
    | _ => none

/-- Expected map entry for one snapshot section: name match first, else
a successful create's id when the resolved parent is truthy, else
nothing. -/
def sectionMapSpec (existingSecs : List ExEntity) (catMap : List (Nat × Nat))
    (existingCats : List ExEntity) (f : SnapSec → CreateResult)
    (s : SnapSec) : Option Nat :=
  match findExisting existingSecs s.name with
  | some ex => some ex.id
  | none =>
    if truthyId (resolveParent catMap existingCats s.category_id) then
      match f s with
      | .ok n => some n
      | _ => none
    else none

theorem lookupMap_restoreCategories_not_mem {snapshot : List SnapCat}
    {existing : List ExEntity} {f : SnapCat → CreateResult} {k : Nat}
    (hk : k ∉ snapshot.map SnapCat.id) :
    lookupMap (restoreCategories snapshot existing f).1 k = none := by
  induction snapshot with
  | nil => rfl
  | cons c rest ih =>
    simp only [List.map_cons, List.mem_cons] at hk
    push_neg at hk
    obtain ⟨h1, h2⟩ := hk
    simp only [restoreCategories]
    cases hfe : findExisting existing c.name with
    | some ex =>
      simp only [lookupMap, if_neg (Ne.symm h1)]
      exact ih h2
    | none =>
      cases hco : f c with
      | ok n =>
        simp only [lookupMap, if_neg (Ne.symm h1)]
        exact ih h2
      | httpFail => exact ih h2
      | exn => rfl

theorem restoreCategories_creates_sub (snapshot : List SnapCat)
    (existing : List ExEntity) (f : SnapCat → CreateResult) :
    ∀ k ∈ (restoreCategories snapshot existing f).2, k ∈ snapshot.map SnapCat.id := by
  induction snapshot with
  | nil => intro k hk; cases hk
  | cons c rest ih =>
    intro k hk
    simp only [restoreCategories] at hk
    simp only [List.map_cons, List.mem_cons]
    cases hfe : findExisting existing c.name with
    | some ex =>
      simp only [hfe] at hk
      exact Or.inr (ih k hk)
    | none =>
      simp only [hfe] at hk
      cases hco : f c with
      | ok n =>
        simp only [hco, List.mem_cons] at hk
        rcases hk with rfl | hk
        · exact Or.inl rfl
        · exact Or.inr (ih k hk)
      | httpFail =>
        simp only [hco, List.mem_cons] at hk
        rcases hk with rfl | hk
        · exact Or.inl rfl
        · exact Or.inr (ih k hk)
      | exn =>
        simp only [hco, List.mem_singleton] at hk
        exact Or.inl hk

theorem restoreCategories_lookup {snapshot : List SnapCat}
    {existing : List ExEntity} {f : SnapCat → CreateResult}
    (hno : ∀ x ∈ snapshot, f x ≠ CreateResult.exn)
    (hnodup : (snapshot.map SnapCat.id).Nodup)
    {c : SnapCat} (hc : c ∈ snapshot) :
    lookupMap (restoreCategories snapshot existing f).1 c.id =
      categoryMapSpec existing f c := by
  induction snapshot with
  | nil => cases hc
  | cons d rest ih =>
    simp only [List.map_cons, List.nodup_cons] at hnodup
    obtain ⟨hd, hrest⟩ := hnodup
    rcases List.mem_cons.mp hc with rfl | hc
    · simp only [restoreCategories, categoryMapSpec]
      cases hfe : findExisting existing c.name with
      | some ex => simp [lookupMap]
      | none =>
        cases hco : f c with
        | ok n => simp [lookupMap]
        | httpFail =>
          exact lookupMap_restoreCategories_not_mem hd
        | exn => exact absurd hco (hno c (List.mem_cons_self c rest))
    · have hne : d.id ≠ c.id := by
        intro h
        exact hd (h ▸ List.mem_map_of_mem SnapCat.id hc)
      have hno2 : ∀ x ∈ rest, f x ≠ CreateResult.exn :=
        fun x hx => hno x (List.mem_cons_of_mem d hx)
      simp only [restoreCategories]
      cases hfe : findExisting existing d.name with
      | some ex =>
        simp only [lookupMap, if_neg hne]
        exact ih hno2 hrest hc
      | none =>
        cases hco : f d with
        | ok n =>
          simp only [lookupMap, if_neg hne]
          exact ih hno2 hrest hc
        | httpFail => exact ih hno2 hrest hc
        | exn => exact absurd hco (hno d (List.mem_cons_self d rest))

theorem restoreCategories_no_create_of_match {snapshot : List SnapCat}
    {existing : List ExEntity} {f : SnapCat → CreateResult}
    (hnodup : (snapshot.map SnapCat.id).Nodup)
    {c : SnapCat} (hc : c ∈ snapshot) {ex : ExEntity}
    (hfe : findExisting existing c.name = some ex) :
    c.id ∉ (restoreCategories snapshot existing f).2 := by
  induction snapshot with
  | nil => cases hc
  | cons d rest ih =>
    simp only [List.map_cons, List.nodup_cons] at hnodup
    obtain ⟨hd, hrest⟩ := hnodup
    rcases List.mem_cons.mp hc with rfl | hc
    · simp only [restoreCategories, hfe]
      intro hmem
      exact hd (restoreCategories_creates_sub rest existing f c.id hmem)
    · have hne : d.id ≠ c.id := by
        intro h
        exact hd (h ▸ List.mem_map_of_mem SnapCat.id hc)
      simp only [restoreCategories]
      cases hfd : findExisting existing d.name with
      | some ex2 => exact ih hrest hc
      | none =>
        cases hco : f d with
        | ok n =>
          intro hmem
          rcases List.mem_cons.mp hmem with h | h
          · exact hne h.symm
          · exact ih hrest hc h
        | httpFail =>
          intro hmem
          rcases List.mem_cons.mp hmem with h | h
          · exact hne h.symm
          · exact ih hrest hc h
        | exn =>
          intro hmem
          exact hne (List.mem_singleton.mp hmem).symm

theorem restoreCategories_map_provenance (snapshot : List SnapCat)
    (existing : List ExEntity) (f : SnapCat → CreateResult) :
    ∀ kv ∈ (restoreCategories snapshot existing f).1,
      ∃ c, c ∈ snapshot ∧ c.id = kv.1 ∧
        ((∃ ex, findExisting existing c.name = some ex ∧ kv.2 = ex.id) ∨
         (findExisting existing c.name = none ∧ f c = CreateResult.ok kv.2)) := by
  induction snapshot with
  | nil => intro kv hkv; cases hkv
  | cons d rest ih =>
    intro kv hkv
    simp only [restoreCategories] at hkv
    cases hfe : findExisting existing d.name with
    | some ex =>
      simp only [hfe, List.mem_cons] at hkv
      rcases hkv with rfl | hkv
      · exact ⟨d, List.mem_cons_self d rest, rfl, Or.inl ⟨ex, hfe, rfl⟩⟩
      · obtain ⟨c, hc, h1, h2⟩ := ih kv hkv
        exact ⟨c, List.mem_cons_of_mem d hc, h1, h2⟩
    | none =>
      simp only [hfe] at hkv
      cases hco : f d with
      | ok n =>
        simp only [hco, List.mem_cons] at hkv
        rcases hkv with rfl | hkv
        · exact ⟨d, List.mem_cons_self d rest, rfl, Or.inr ⟨hfe, hco⟩⟩
        · obtain ⟨c, hc, h1, h2⟩ := ih kv hkv
          exact ⟨c, List.mem_cons_of_mem d hc, h1, h2⟩
      | httpFail =>
        simp only [hco] at hkv
        obtain ⟨c, hc, h1, h2⟩ := ih kv hkv
        exact ⟨c, List.mem_cons_of_mem d hc, h1, h2⟩
      | exn =>
        simp only [hco] at hkv
        cases hkv

theorem restoreCategories_exn_prefix (pre : List SnapCat) (c : SnapCat)
    (post : List SnapCat) (existing : List ExEntity) (f : SnapCat → CreateResult)
    (hpre : ∀ x ∈ pre, f x ≠ CreateResult.exn)
    (hc1 : findExisting existing c.name = none) (hc2 : f c = CreateResult.exn) :
    (restoreCategories (pre ++ c :: post) existing f).1 =
      (restoreCategories pre existing f).1 := by
  induction pre with
  | nil => simp [restoreCategories, hc1, hc2]
  | cons d pre ih =>
    have hno2 : ∀ x ∈ pre, f x ≠ CreateResult.exn :=
      fun x hx => hpre x (List.mem_cons_of_mem d hx)
    simp only [List.cons_append, restoreCategories]
    cases hfd : findExisting existing d.name with
    | some ex => simp [ih hno2]
    | none =>
      cases hco : f d with
      | ok n => simp [ih hno2]
      | httpFail => simp [ih hno2]
      | exn => exact absurd hco (hpre d (List.mem_cons_self d pre))

theorem lookupMap_restoreSections_not_mem {snapshot : List SnapSec}
    {existingSecs : List ExEntity} {catMap : List (Nat × Nat)}
    {existingCats : List ExEntity} {f : SnapSec → CreateResult} {k : Nat}
    (hk : k ∉ snapshot.map SnapSec.id) :
    lookupMap (restoreSections snapshot existingSecs catMap existingCats f).1 k = none := by
  induction snapshot with
  | nil => rfl
  | cons s rest ih =>
    simp only [List.map_cons, List.mem_cons] at hk
    push_neg at hk
    obtain ⟨h1, h2⟩ := hk
    simp only [restoreSections]
    cases hfe : findExisting existingSecs s.name with
    | some ex =>
      simp only [lookupMap, if_neg (Ne.symm h1)]
      exact ih h2
    | none =>
      by_cases ht : truthyId (resolveParent catMap existingCats s.category_id) = true
      · simp only [ht, if_true]
        cases hco : f s with
        | ok n =>
          simp only [lookupMap, if_neg (Ne.symm h1)]
          exact ih h2
        | httpFail => exact ih h2
        | exn => rfl
      · simp only [Bool.not_eq_true] at ht
        simp only [ht, Bool.false_eq_true, if_false]
        exact ih h2

theorem restoreSections_creates_sub (snapshot : List SnapSec)
    (existingSecs : List ExEntity) (catMap : List (Nat × Nat))
    (existingCats : List ExEntity) (f : SnapSec → CreateResult) :
    ∀ kp ∈ (restoreSections snapshot existingSecs catMap existingCats f).2,
      kp.1 ∈ snapshot.map SnapSec.id := by
  induction snapshot with
  | nil => intro kp hkp; cases hkp
  | cons s rest ih =>
    intro kp hkp
    simp only [restoreSections] at hkp
    simp only [List.map_cons, List.mem_cons]
    cases hfe : findExisting existingSecs s.name with
    | some ex =>
      simp only [hfe] at hkp
      exact Or.inr (ih kp hkp)
    | none =>
      simp only [hfe] at hkp
      by_cases ht : truthyId (resolveParent catMap existingCats s.category_id) = true
      · simp only [ht, if_true] at hkp
        cases hco : f s with
        | ok n =>
          simp only [hco, List.mem_cons] at hkp
          rcases hkp with rfl | hkp
          · exact Or.inl rfl
          · exact Or.inr (ih kp hkp)
        | httpFail =>
          simp only [hco, List.mem_cons] at hkp
          rcases hkp with rfl | hkp
          · exact Or.inl rfl
          · exact Or.inr (ih kp hkp)
        | exn =>
          simp only [hco, List.mem_singleton] at hkp
          subst hkp
          exact Or.inl rfl
      · simp only [Bool.not_eq_true] at ht
        simp only [ht, Bool.false_eq_true, if_false] at hkp
        exact Or.inr (ih kp hkp)

theorem restoreSections_lookup {snapshot : List SnapSec}
    {existingSecs : List ExEntity} {catMap : List (Nat × Nat)}
    {existingCats : List ExEntity} {f : SnapSec → CreateResult}
    (hno : ∀ x ∈ snapshot, f x ≠ CreateResult.exn)
    (hnodup : (snapshot.map SnapSec.id).Nodup)
    {s : SnapSec} (hs : s ∈ snapshot) :
    lookupMap (restoreSections snapshot existingSecs catMap existingCats f).1 s.id =
      sectionMapSpec existingSecs catMap existingCats f s := by
  induction snapshot with
  | nil => cases hs
  | cons d rest ih =>
    simp only [List.map_cons, List.nodup_cons] at hnodup
    obtain ⟨hd, hrest⟩ := hnodup
    rcases List.mem_cons.mp hs with rfl | hs
    · simp only [restoreSections, sectionMapSpec]
      cases hfe : findExisting existingSecs s.name with
      | some ex => simp [lookupMap]
      | none =>
        by_cases ht : truthyId (resolveParent catMap existingCats s.category_id) = true
        · simp only [ht, if_true]
          cases hco : f s with
          | ok n => simp [lookupMap]
          | httpFail => exact lookupMap_restoreSections_not_mem hd
          | exn => exact absurd hco (hno s (List.mem_cons_self s rest))
        · simp only [Bool.not_eq_true] at ht
          simp only [ht, Bool.false_eq_true, if_false]
          exact lookupMap_restoreSections_not_mem hd
    · have hne : d.id ≠ s.id := by
        intro h
        exact hd (h ▸ List.mem_map_of_mem SnapSec.id hs)
      have hno2 : ∀ x ∈ rest, f x ≠ CreateResult.exn :=
        fun x hx => hno x (List.mem_cons_of_mem d hx)
      simp only [restoreSections]
      cases hfe : findExisting existingSecs d.name with
      | some ex =>
        simp only [lookupMap, if_neg hne]
        exact ih hno2 hrest hs
      | none =>
        by_cases ht : truthyId (resolveParent catMap existingCats d.category_id) = true
        · simp only [ht, if_true]
          cases hco : f d with
          | ok n =>
            simp only [lookupMap, if_neg hne]
            exact ih hno2 hrest hs
          | httpFail => exact ih hno2 hrest hs
          | exn => exact absurd hco (hno d (List.mem_cons_self d rest))
        · simp only [Bool.not_eq_true] at ht
          simp only [ht, Bool.false_eq_true, if_false]
          exact ih hno2 hrest hs

theorem restoreSections_creates_provenance (snapshot : List SnapSec)
    (existingSecs : List ExEntity) (catMap : List (Nat × Nat))
    (existingCats : List ExEntity) (f : SnapSec → CreateResult) :
    ∀ kp ∈ (restoreSections snapshot existingSecs catMap existingCats f).2,
      ∃ s, s ∈ snapshot ∧ s.id = kp.1 ∧
        findExisting existingSecs s.name = none ∧
        truthyId (resolveParent catMap existingCats s.category_id) = true ∧
        kp.2 = (resolveParent catMap existingCats s.category_id).getD 0 := by
  induction snapshot with
  | nil => intro kp hkp; cases hkp
  | cons d rest ih =>
    intro kp hkp
    simp only [restoreSections] at hkp
    cases hfe : findExisting existingSecs d.name with
    | some ex =>
      simp only [hfe] at hkp
      obtain ⟨s, hs, h1, h2, h3, h4⟩ := ih kp hkp
      exact ⟨s, List.mem_cons_of_mem d hs, h1, h2, h3, h4⟩
    | none =>
      simp only [hfe] at hkp
      by_cases ht : truthyId (resolveParent catMap existingCats d.category_id) = true
      · simp only [ht, if_true] at hkp
        cases hco : f d with
        | ok n =>
          simp only [hco, List.mem_cons] at hkp
          rcases hkp with rfl | hkp
          · exact ⟨d, List.mem_cons_self d rest, rfl, hfe, ht, rfl⟩
          · obtain ⟨s, hs, h1, h2, h3, h4⟩ := ih kp hkp
            exact ⟨s, List.mem_cons_of_mem d hs, h1, h2, h3, h4⟩
        | httpFail =>
          simp only [hco, List.mem_cons] at hkp
          rcases hkp with rfl | hkp
          · exact ⟨d, List.mem_cons_self d rest, rfl, hfe, ht, rfl⟩
          · obtain ⟨s, hs, h1, h2, h3, h4⟩ := ih kp hkp
            exact ⟨s, List.mem_cons_of_mem d hs, h1, h2, h3, h4⟩
        | exn =>
          simp only [hco, List.mem_singleton] at hkp
          subst hkp
          exact ⟨d, List.mem_cons_self d rest, rfl, hfe, ht, rfl⟩
      · simp only [Bool.not_eq_true] at ht
        simp only [ht, Bool.false_eq_true, if_false] at hkp
        obtain ⟨s, hs, h1, h2, h3, h4⟩ := ih kp hkp
        exact ⟨s, List.mem_cons_of_mem d hs, h1, h2, h3, h4⟩

/-! Helper lemmas about `restore_article`. -/

theorem tryUpdate_requests (aid : Nat) (p : List (String × JVal))
    (w : ArticleWorld) (t : List Request) :
    ∀ r ∈ (tryUpdate aid p w t).2,
      r ∈ t ∨ r = Request.updateStd aid p ∨ r = Request.updateGuide aid p := by
  intro r hr
  unfold tryUpdate at hr
  cases hus : w.updateStd with
  | exn =>
    simp only [hus, List.mem_append, List.mem_singleton] at hr
    tauto
  | resp c1 =>
    simp only [hus] at hr
    by_cases h1 : c1 = 200
    · rw [if_pos h1] at hr
      simp only [List.mem_append, List.mem_singleton] at hr
      tauto
    · rw [if_neg h1] at hr
      cases hug : w.updateGuide with
      | exn =>
        simp only [hug, List.mem_append, List.mem_cons, List.mem_singleton] at hr
        tauto
      | resp c2 =>
        simp only [hug, List.mem_append, List.mem_cons, List.mem_singleton] at hr
        tauto

theorem tryCreate_requests (locale : String) (sid : Nat) (p : List (String × JVal))
    (w : ArticleWorld) (t : List Request) :
    ∀ r ∈ (tryCreate locale sid p w t).2,
      r ∈ t ∨ r = Request.createStd locale sid p ∨ r = Request.createGuide sid p := by
  intro r hr
  unfold tryCreate at hr
  cases hcrs : w.createStd with
  | exn =>
    simp only [hcrs, List.mem_append, List.mem_singleton] at hr
    tauto
  | resp c1 =>
    simp only [hcrs] at hr
    by_cases h1 : c1 = 200 ∨ c1 = 201
    · rw [if_pos h1] at hr
      simp only [List.mem_append, List.mem_singleton] at hr
      tauto
    · rw [if_neg h1] at hr
      cases hcrg : w.createGuide with
      | exn =>
        simp only [hcrg, List.mem_append, List.mem_cons, List.mem_singleton] at hr
        tauto
      | resp c2 =>
        simp only [hcrg, List.mem_append, List.mem_cons, List.mem_singleton] at hr
        tauto

theorem restore_article_requests (articleId : Nat) (content : String)
    (metadata : ArticleMeta) (vs vp vu : Option Nat) (language : String)
    (m : Option (List (Nat × Nat))) (world : ArticleWorld) :
    ∀ r ∈ (restore_article articleId content metadata vs vp vu language m world).2,
      r = Request.checkStd articleId ∨ r = Request.checkGuide articleId ∨
      r = Request.updateStd articleId (articlePayloadFields
            (metadata.title.getD ("Article " ++ toString articleId)) content
            (metadata.locale.getD language) vp vu) ∨
      r = Request.updateGuide articleId (articlePayloadFields
            (metadata.title.getD ("Article " ++ toString articleId)) content
            (metadata.locale.getD language) vp vu) ∨
      r = Request.createStd (metadata.locale.getD language)
            ((pyResolveSection metadata.section_id m vs).getD 0)
            (articlePayloadFields
              (metadata.title.getD ("Article " ++ toString articleId)) content
              (metadata.locale.getD language) vp vu) ∨
      r = Request.createGuide ((pyResolveSection metadata.section_id m vs).getD 0)
            (articlePayloadFields
              (metadata.title.getD ("Article " ++ toString articleId)) content
              (metadata.locale.getD language) vp vu) := by
  intro r hr
  unfold restore_article at hr
  by_cases ht : truthyId (pyResolveSection metadata.section_id m vs) = true
  · simp only [ht, eq_self_iff_true, if_true] at hr
    cases hcs : world.checkStd with
    | exn =>
      simp only [hcs, List.mem_singleton] at hr
      tauto
    | resp c1 =>
      simp only [hcs] at hr
      by_cases h1 : c1 = 200
      · simp only [h1, eq_self_iff_true, if_true] at hr
        have := tryUpdate_requests articleId _ world [Request.checkStd articleId] r hr
        simp only [List.mem_singleton] at this
        tauto
      · simp only [if_neg h1] at hr
        cases hcg : world.checkGuide with
        | exn =>
          simp only [hcg, List.mem_cons, List.mem_singleton] at hr
          tauto
        | resp c2 =>
          simp only [hcg] at hr
          by_cases h2 : c2 = 200
          · simp only [h2, eq_self_iff_true, if_true] at hr
            have := tryUpdate_requests articleId _ world
              [Request.checkStd articleId, Request.checkGuide articleId] r hr
            simp only [List.mem_cons, List.mem_singleton] at this
            tauto
          · simp only [if_neg h2] at hr
            have := tryCreate_requests (metadata.locale.getD language) _ _ world
              [Request.checkStd articleId, Request.checkGuide articleId] r hr
            simp only [List.mem_cons, List.mem_singleton] at this
            tauto
  · simp only [Bool.not_eq_true] at ht
    simp only [ht, Bool.false_eq_true, if_false] at hr
    cases hr

theorem restore_article_no_section (articleId : Nat) (content : String)
    (metadata : ArticleMeta) (vs vp vu : Option Nat) (language : String)
    (m : Option (List (Nat × Nat))) (world : ArticleWorld)
    (h : truthyId (pyResolveSection metadata.section_id m vs) = false) :
    restore_article articleId content metadata vs vp vu language m world = (false, []) := by
  unfold restore_article
  simp only [h, Bool.false_eq_true, if_false]

theorem pyResolveSection_fallback {metaSectionId : Option Nat}
    {sectionIdMap : Option (List (Nat × Nat))} {validSectionId : Option Nat}
    (hmap : ∀ m s, sectionIdMap = some m → metaSectionId = some s →
      lookupMap m s = none) :
    pyResolveSection metaSectionId sectionIdMap validSectionId = validSectionId := by
  unfold pyResolveSection
  cases sectionIdMap with
  | none => rfl
  | some m =>
    by_cases he : m.isEmpty
    · simp [he]
    · simp only [he, Bool.false_eq_true, if_false]
      cases hms : metaSectionId with
      | none => rfl
      | some s => simp [hmap m s rfl hms]

theorem pyResolveSection_mapped {m : List (Nat × Nat)} {s t : Nat}
    {validSectionId : Option Nat} (h : lookupMap m s = some t) :
    pyResolveSection (some s) (some m) validSectionId = some t := by
  unfold pyResolveSection
  have hm : ¬ m.isEmpty := by
    cases m with
    | nil => cases h
    | cons a l => simp [List.isEmpty]
  simp [hm, h]

theorem articlePayloadFields_keys (title content locale : String)
    (vp vu : Option Nat) :
    ∀ kv ∈ articlePayloadFields title content locale vp vu,
      kv.1 ∈ (["title", "body", "locale", "draft", "promoted",
               "permission_group_id", "user_segment_id"] : List String) := by
  intro kv hkv
  unfold articlePayloadFields at hkv
  rcases List.mem_append.mp hkv with h | h
  · rcases List.mem_append.mp h with h2 | h2
    · fin_cases h2 <;> simp
    · cases vp with
      | none => cases h2
      | some p =>
        rw [List.mem_singleton] at h2
        subst h2
        simp
  · cases vu with
    | none => cases h
    | some u =>
      rw [List.mem_singleton] at h
      subst h
      simp

theorem articlePayloadFields_draft_promoted (title content locale : String)
    (vp vu : Option Nat) :
    ("draft", JVal.b false) ∈ articlePayloadFields title content locale vp vu ∧
    ("promoted", JVal.b true) ∈ articlePayloadFields title content locale vp vu := by
  unfold articlePayloadFields
  cases vp <;> cases vu <;> simp

theorem articlePayloadFields_no_section (title content locale : String)
    (vp vu : Option Nat) :
    ∀ kv ∈ articlePayloadFields title content locale vp vu, kv.1 ≠ "section_id" := by
  intro kv hkv h
  have hmem := articlePayloadFields_keys title content locale vp vu kv hkv
  rw [h] at hmem
  exact absurd hmem (by decide)

theorem restoreSections_skipped {snapshot : List SnapSec}
    {existingSecs : List ExEntity} {catMap : List (Nat × Nat)}
    {existingCats : List ExEntity} {f : SnapSec → CreateResult}
    (hnodup : (snapshot.map SnapSec.id).Nodup)
    {s : SnapSec} (hs : s ∈ snapshot)
    (hfe : findExisting existingSecs s.name = none)
    (ht : truthyId (resolveParent catMap existingCats s.category_id) = false) :
    lookupMap (restoreSections snapshot existingSecs catMap existingCats f).1
      s.id = none := by
  induction snapshot with
  | nil => cases hs
  | cons d rest ih =>
    simp only [List.map_cons, List.nodup_cons] at hnodup
    obtain ⟨hd, hrest⟩ := hnodup
    rcases List.mem_cons.mp hs with rfl | hs
    · simp only [restoreSections, hfe, ht, Bool.false_eq_true, if_false]
      exact lookupMap_restoreSections_not_mem hd
    · have hne : d.id ≠ s.id := by
        intro h
        exact hd (h ▸ List.mem_map_of_mem SnapSec.id hs)
      simp only [restoreSections]
      cases hfd : findExisting existingSecs d.name with
      | some ex =>
        simp only [lookupMap, if_neg hne]
        exact ih hrest hs
      | none =>
        by_cases htd : truthyId (resolveParent catMap existingCats d.category_id) = true
        · simp only [htd, if_true]
          cases hco : f d with
          | ok n =>
            simp only [lookupMap, if_neg hne]
            exact ih hrest hs
          | httpFail => exact ih hrest hs
          | exn => rfl
        · simp only [Bool.not_eq_true] at htd
          simp only [htd, Bool.false_eq_true, if_false]
          exact ih hrest hs

/-! Claim theorems. -/

/-- C1: Section precedence in `restore_article`: when the metadata's
original section id is a key of `section_id_map`, the mapped target id is
resolved and every create request issued targets exactly that mapped
section (for example, map entry 10 to 99 places the article under 99);
the fallback `valid_section_id` is resolved only when the metadata
section id is absent from the map (including the absent-metadata case). -/
theorem c1_section_precedence (articleId : Nat) (content : String)
    (metadata : ArticleMeta) (vs vp vu : Option Nat) (language : String)
    (m : List (Nat × Nat)) (world : ArticleWorld) :
    (∀ s t, metadata.section_id = some s → lookupMap m s = some t →
      pyResolveSection metadata.section_id (some m) vs = some t ∧
      ∀ r ∈ (restore_article articleId content metadata vs vp vu language
          (some m) world).2,
        r.createSectionId = none ∨ r.createSectionId = some t) ∧
    (∀ s, metadata.section_id = some s → lookupMap m s = none →
      pyResolveSection metadata.section_id (some m) vs = vs) ∧
    (metadata.section_id = none →
      pyResolveSection metadata.section_id (some m) vs = vs) := by
  refine ⟨?_, ?_, ?_⟩
  · intro s t hs hl
    have hres : pyResolveSection metadata.section_id (some m) vs = some t := by
      rw [hs]
      exact pyResolveSection_mapped hl
    refine ⟨hres, ?_⟩
    intro r hr
    rcases restore_article_requests articleId content metadata vs vp vu language
        (some m) world r hr with rfl | rfl | rfl | rfl | rfl | rfl <;>
      simp [Request.createSectionId, hres]
  · intro s hs hl
    apply pyResolveSection_fallback
    intro m2 s2 hm2 hs2
    cases hm2
    rw [hs] at hs2
    cases hs2
    exact hl
  · intro hs
    apply pyResolveSection_fallback
    intro m2 s2 _ hs2
    rw [hs] at hs2
    exact Option.noConfusion hs2

theorem c1_section_precedence_witness :
    pyResolveSection (some 10) (some [(10, 99)]) (some 5) = some 99 :=
  ((c1_section_precedence 1 "b" ⟨some 10, none, none⟩ (some 5) none none "en-us"
      [(10, 99)] ⟨ReqOutcome.exn, ReqOutcome.exn, ReqOutcome.exn, ReqOutcome.exn,
        ReqOutcome.exn, ReqOutcome.exn⟩).1 10 99 rfl rfl).1

/-- C6: When the metadata section id is not mapped and the fallback
section id is falsy (absent or zero), `restore_article` returns failure
and issues no remote request at all: no existence check, no write. -/
theorem c6_no_usable_section (articleId : Nat) (content : String)
    (metadata : ArticleMeta) (vs vp vu : Option Nat) (language : String)
    (sectionIdMap : Option (List (Nat × Nat))) (world : ArticleWorld)
    (hmap : ∀ m s, sectionIdMap = some m → metadata.section_id = some s →
      lookupMap m s = none)
    (hvs : truthyId vs = false) :
    restore_article articleId content metadata vs vp vu language sectionIdMap
      world = (false, []) := by
  apply restore_article_no_section
  rw [pyResolveSection_fallback hmap]
  exact hvs

theorem c6_no_usable_section_witness :
    restore_article 7 "x" ⟨none, none, none⟩ none none none "en-us" (some [])
      ⟨ReqOutcome.resp 200, ReqOutcome.resp 200, ReqOutcome.resp 200,
        ReqOutcome.resp 200, ReqOutcome.resp 200, ReqOutcome.resp 200⟩ =
      (false, []) :=
  c6_no_usable_section 7 "x" ⟨none, none, none⟩ none none none "en-us" (some [])
    ⟨ReqOutcome.resp 200, ReqOutcome.resp 200, ReqOutcome.resp 200,
      ReqOutcome.resp 200, ReqOutcome.resp 200, ReqOutcome.resp 200⟩
    (fun _ _ _ hs => Option.noConfusion hs) rfl

/-- C7: Every update or create request issued by `restore_article`
carries a payload in which draft is False and promoted is True,
independently of the article's metadata or original flags. -/
theorem c7_draft_promoted (articleId : Nat) (content : String)
    (metadata : ArticleMeta) (vs vp vu : Option Nat) (language : String)
    (m : Option (List (Nat × Nat))) (world : ArticleWorld) :
    ∀ r ∈ (restore_article articleId content metadata vs vp vu language m
        world).2,
      ∀ p, r.payload? = some p →
        ("draft", JVal.b false) ∈ p ∧ ("promoted", JVal.b true) ∈ p := by
  intro r hr p hp
  rcases restore_article_requests articleId content metadata vs vp vu language
      m world r hr with rfl | rfl | rfl | rfl | rfl | rfl
  · exact Option.noConfusion hp
  · exact Option.noConfusion hp
  all_goals
    cases hp
    exact articlePayloadFields_draft_promoted _ _ _ _ _

theorem c7_draft_promoted_witness :
    ("draft", JVal.b false) ∈ articlePayloadFields "Article 1" "b" "en-us"
        none none ∧
    ("promoted", JVal.b true) ∈ articlePayloadFields "Article 1" "b" "en-us"
        none none :=
  c7_draft_promoted 1 "b" ⟨none, none, none⟩ (some 4) none none "en-us" none
    ⟨ReqOutcome.resp 200, ReqOutcome.resp 200, ReqOutcome.resp 200,
      ReqOutcome.resp 200, ReqOutcome.resp 200, ReqOutcome.resp 200⟩
    (Request.updateStd 1 (articlePayloadFields "Article 1" "b" "en-us" none none))
    (by decide) _ rfl

/-- C9: Update requests issued by `restore_article` carry only the keys
title, body, locale, draft, promoted and the optional
permission_group_id and user_segment_id — never a section id — and no
update request names a target section; only create requests carry the
resolved section id (in their URL). -/
theorem c9_update_frame (articleId : Nat) (content : String)
    (metadata : ArticleMeta) (vs vp vu : Option Nat) (language : String)
    (m : Option (List (Nat × Nat))) (world : ArticleWorld) :
    ∀ r ∈ (restore_article articleId content metadata vs vp vu language m
        world).2,
      (r.isUpdate = true →
        r.createSectionId = none ∧
        ∀ p kv, r.payload? = some p → kv ∈ p →
          kv.1 ∈ (["title", "body", "locale", "draft", "promoted",
                   "permission_group_id", "user_segment_id"] : List String) ∧
          kv.1 ≠ "section_id") ∧
      (∀ sid, r.createSectionId = some sid → r.isUpdate = false) := by
  intro r hr
  rcases restore_article_requests articleId content metadata vs vp vu language
      m world r hr with rfl | rfl | rfl | rfl | rfl | rfl
  · exact ⟨fun h => Bool.noConfusion h, fun _ h => Option.noConfusion h⟩
  · exact ⟨fun h => Bool.noConfusion h, fun _ h => Option.noConfusion h⟩
  · refine ⟨fun _ => ⟨rfl, ?_⟩, fun _ h => Option.noConfusion h⟩
    intro p kv hp hkv
    cases hp
    exact ⟨articlePayloadFields_keys _ _ _ _ _ kv hkv,
           articlePayloadFields_no_section _ _ _ _ _ kv hkv⟩
  · refine ⟨fun _ => ⟨rfl, ?_⟩, fun _ h => Option.noConfusion h⟩
    intro p kv hp hkv
    cases hp
    exact ⟨articlePayloadFields_keys _ _ _ _ _ kv hkv,
           articlePayloadFields_no_section _ _ _ _ _ kv hkv⟩
  · exact ⟨fun h => Bool.noConfusion h, fun _ _ => rfl⟩
  · exact ⟨fun h => Bool.noConfusion h, fun _ _ => rfl⟩

theorem c9_update_frame_witness :
    (Request.updateStd 1 (articlePayloadFields "Article 1" "b" "en-us" none
      none)).createSectionId = none :=
  ((c9_update_frame 1 "b" ⟨none, none, none⟩ (some 4) none none "en-us" none
    ⟨ReqOutcome.resp 200, ReqOutcome.resp 200, ReqOutcome.resp 200,
      ReqOutcome.resp 200, ReqOutcome.resp 200, ReqOutcome.resp 200⟩
    (Request.updateStd 1 (articlePayloadFields "Article 1" "b" "en-us" none none))
    (by decide)).1 rfl).1

/-- C3: Name matching in structure reconciliation is case-insensitive,
for categories and for sections alike: a snapshot entity whose name has a
case-insensitive twin among the existing target entities is matched
(`findExisting` finds one), is mapped to the matched existing entity's
id, and triggers no create call, so no duplicate is created.  The mapped
outcome is stated under the assumption that no earlier create raised a
transport exception (which would abort the pass, see C4). -/
theorem c3_case_insensitive_matching
    (catSnap : List SnapCat) (existingCats : List ExEntity)
    (fCat : SnapCat → CreateResult)
    (secSnap : List SnapSec) (existingSecs : List ExEntity)
    (catMap : List (Nat × Nat)) (parentCats : List ExEntity)
    (fSec : SnapSec → CreateResult) :
    (∀ name e, e ∈ existingCats → lowerEq e.name name = true →
       (findExisting existingCats name).isSome = true) ∧
    (∀ c ex, c ∈ catSnap → (catSnap.map SnapCat.id).Nodup →
       findExisting existingCats c.name = some ex →
       c.id ∉ (restoreCategories catSnap existingCats fCat).2 ∧
       ((∀ x ∈ catSnap, fCat x ≠ CreateResult.exn) →
         lookupMap (restoreCategories catSnap existingCats fCat).1 c.id =
           some ex.id)) ∧
    (∀ s ex, s ∈ secSnap → (secSnap.map SnapSec.id).Nodup →
       findExisting existingSecs s.name = some ex →
       (∀ p, (s.id, p) ∉
         (restoreSections secSnap existingSecs catMap parentCats fSec).2) ∧
       ((∀ x ∈ secSnap, fSec x ≠ CreateResult.exn) →
         lookupMap
           (restoreSections secSnap existingSecs catMap parentCats fSec).1
           s.id = some ex.id)) := by
  refine ⟨?_, ?_, ?_⟩
  · intro name e he hl
    unfold findExisting
    rw [List.find?_isSome]
    exact ⟨e, he, hl⟩
  · intro c ex hc hnodup hfe
    refine ⟨restoreCategories_no_create_of_match hnodup hc hfe, ?_⟩
    intro hno
    rw [restoreCategories_lookup hno hnodup hc]
    unfold categoryMapSpec
    rw [hfe]
  · intro s ex hs hnodup hfe
    constructor
    · intro p hp
      obtain ⟨s2, hs2, hid, hfe2, _, _⟩ :=
        restoreSections_creates_provenance secSnap existingSecs catMap
          parentCats fSec (s.id, p) hp
      have : s2 = s := List.inj_on_of_nodup_map hnodup hs2 hs hid
      rw [this] at hfe2
      rw [hfe] at hfe2
      exact Option.noConfusion hfe2
    · intro hno
      rw [restoreSections_lookup hno hnodup hs]
      unfold sectionMapSpec
      rw [hfe]

theorem c3_case_insensitive_matching_witness :
    lookupMap (restoreCategories [⟨1, "faq"⟩] [⟨100, "FAQ"⟩]
      (fun _ => CreateResult.httpFail)).1 1 = some 100 :=
  ((c3_case_insensitive_matching [⟨1, "faq"⟩] [⟨100, "FAQ"⟩]
      (fun _ => CreateResult.httpFail) [] [] [] [] (fun _ => CreateResult.httpFail)).2.1
    ⟨1, "faq"⟩ ⟨100, "FAQ"⟩ (by decide) (by decide) (by decide)).2
    (fun x _ => by decide)

/-- C2 counterexample: a snapshot section whose original category id is
unmapped and for which no target category exists at all (so no parent is
resolvable) is NOT skipped when its name case-insensitively matches an
existing target section — it is mapped to the existing section's id and
therefore present in the returned section map, contradicting the claim
that it is absent. -/
theorem c2_counterexample :
    resolveParent [] [] (some 7) = none ∧
    truthyId (resolveParent [] [] (some 7)) = false ∧
    findExisting [⟨50, "s"⟩] "S" = some ⟨50, "s"⟩ ∧
    (restoreSections [⟨1, "S", some 7⟩] [⟨50, "s"⟩] [] []
      (fun _ => CreateResult.httpFail)).1 = [(1, 50)] ∧
    lookupMap (restoreSections [⟨1, "S", some 7⟩] [⟨50, "s"⟩] [] []
      (fun _ => CreateResult.httpFail)).1 1 = some 50 :=
  ⟨rfl, rfl, by decide, by decide, by decide⟩

/-- C2 (amended): a section's parent category id is resolved through the
category map first, else the target's first existing category; a section
with no truthy resolvable parent is skipped — absent from the returned
section map and never created — provided its name matches no existing
target section; and every create that does happen uses exactly the
resolved parent.  (A name-matched section is mapped even when no parent
resolves, which is what falsifies the original claim.) -/
theorem c2_amended (existingSecs : List ExEntity) (catMap : List (Nat × Nat))
    (existingCats : List ExEntity) (f : SnapSec → CreateResult) :
    (∀ oc n, lookupMap catMap oc = some n →
       resolveParent catMap existingCats (some oc) = some n) ∧
    (∀ oc, lookupMap catMap oc = none →
       resolveParent catMap existingCats (some oc) =
         (existingCats.head?).map (fun e => e.id)) ∧
    (∀ snapshot s, (snapshot.map SnapSec.id).Nodup → s ∈ snapshot →
       findExisting existingSecs s.name = none →
       truthyId (resolveParent catMap existingCats s.category_id) = false →
       lookupMap (restoreSections snapshot existingSecs catMap existingCats
         f).1 s.id = none ∧
       ∀ p, (s.id, p) ∉
         (restoreSections snapshot existingSecs catMap existingCats f).2) ∧
    (∀ snapshot kp,
       kp ∈ (restoreSections snapshot existingSecs catMap existingCats f).2 →
       ∃ s, s ∈ snapshot ∧ s.id = kp.1 ∧
         findExisting existingSecs s.name = none ∧
         truthyId (resolveParent catMap existingCats s.category_id) = true ∧
         kp.2 = (resolveParent catMap existingCats s.category_id).getD 0) := by
  refine ⟨?_, ?_, ?_, ?_⟩
  · intro oc n h
    simp [resolveParent, h]
  · intro oc h
    simp [resolveParent, h]
  · intro snapshot s hnodup hs hfe ht
    refine ⟨restoreSections_skipped hnodup hs hfe ht, ?_⟩
    intro p hp
    obtain ⟨s2, hs2, hid, _, ht2, _⟩ :=
      restoreSections_creates_provenance snapshot existingSecs catMap
        existingCats f (s.id, p) hp
    have : s2 = s := List.inj_on_of_nodup_map hnodup hs2 hs hid
    rw [this, ht] at ht2
    exact Bool.noConfusion ht2
  · intro snapshot kp hkp
    exact restoreSections_creates_provenance snapshot existingSecs catMap
      existingCats f kp hkp

theorem c2_amended_witness :
    resolveParent [(7, 70)] [⟨3, "c"⟩] (some 7) = some 70 :=
  (c2_amended [] [(7, 70)] [⟨3, "c"⟩] (fun _ => CreateResult.httpFail)).1 7 70 rfl

/-- C4 counterexample: snapshot category 2 (name "B") case-insensitively
matches the existing target category "b", so processing it would map it
with no write; but category 1's create raises a transport exception, the
pass-level except catches it and abandons the categories loop, and the
returned category map is empty — category 2 was never processed, so a
create failure does not leave reconciliation processing every remaining
entity as the claim states. -/
theorem c4_counterexample :
    findExisting [⟨100, "b"⟩] "B" = some ⟨100, "b"⟩ ∧
    (restoreCategories [⟨1, "A"⟩, ⟨2, "B"⟩] [⟨100, "b"⟩]
      (fun c => if c.id = 1 then CreateResult.exn else CreateResult.ok 5)).1 =
      [] ∧
    lookupMap (restoreCategories [⟨1, "A"⟩, ⟨2, "B"⟩] [⟨100, "b"⟩]
      (fun c => if c.id = 1 then CreateResult.exn else CreateResult.ok 5)).1
      2 = none :=
  ⟨by decide, by decide, by decide⟩

/-- C4 (amended): a create that fails with a non-success HTTP status
leaves exactly that entity unmapped and reconciliation continues with
every remaining entity (for categories and sections alike); every id in
the returned category map comes from an existing entity or a successful
create; but a create that raises a transport exception aborts the
remainder of that pass — the map is truncated to what was accumulated
before the exception (`restore_structure` itself still returns both maps
and never raises). -/
theorem c4_amended (existing : List ExEntity) (f : SnapCat → CreateResult) :
    (∀ snapshot, (∀ x ∈ snapshot, f x ≠ CreateResult.exn) →
       (snapshot.map SnapCat.id).Nodup →
       ∀ c ∈ snapshot,
         lookupMap (restoreCategories snapshot existing f).1 c.id =
           categoryMapSpec existing f c) ∧
    (∀ snapshot kv, kv ∈ (restoreCategories snapshot existing f).1 →
       ∃ c, c ∈ snapshot ∧ c.id = kv.1 ∧
         ((∃ ex, findExisting existing c.name = some ex ∧ kv.2 = ex.id) ∨
          (findExisting existing c.name = none ∧
           f c = CreateResult.ok kv.2))) ∧
    (∀ pre c post, (∀ x ∈ pre, f x ≠ CreateResult.exn) →
       findExisting existing c.name = none → f c = CreateResult.exn →
       (restoreCategories (pre ++ c :: post) existing f).1 =
         (restoreCategories pre existing f).1) ∧
    (∀ secSnap (existingSecs : List ExEntity) (catMap : List (Nat × Nat))
        (existingCats : List ExEntity) (fs : SnapSec → CreateResult),
       (∀ x ∈ secSnap, fs x ≠ CreateResult.exn) →
       (secSnap.map SnapSec.id).Nodup →
       ∀ s ∈ secSnap,
         lookupMap (restoreSections secSnap existingSecs catMap existingCats
           fs).1 s.id = sectionMapSpec existingSecs catMap existingCats fs s) := by
  refine ⟨?_, ?_, ?_, ?_⟩
  · intro snapshot hno hnodup c hc
    exact restoreCategories_lookup hno hnodup hc
  · intro snapshot kv hkv
    exact restoreCategories_map_provenance snapshot existing f kv hkv
  · intro pre c post hpre hc1 hc2
    exact restoreCategories_exn_prefix pre c post existing f hpre hc1 hc2
  · intro secSnap existingSecs catMap existingCats fs hno hnodup s hs
    exact restoreSections_lookup hno hnodup hs

theorem c4_amended_witness :
    lookupMap (restoreCategories [⟨1, "A"⟩] [⟨100, "a"⟩]
      (fun _ => CreateResult.httpFail)).1 1 =
      categoryMapSpec [⟨100, "a"⟩] (fun _ => CreateResult.httpFail) ⟨1, "A"⟩ :=
  (c4_amended [⟨100, "a"⟩] (fun _ => CreateResult.httpFail)).1 [⟨1, "A"⟩]
    (fun x _ => by decide) (by decide) ⟨1, "A"⟩ (by decide)

/-- C5: In fail-fast mode with at least two queued articles, if the
first article's probe restore fails (returns False) or raises, the pass
returns no restored articles and `restore_article` is never invoked on
the second or any later article (the only article it may have been
invoked on is the probe itself). -/
theorem c5_fail_fast_probe (a b : Nat) (rest : List Nat)
    (fate : Nat → ArticleFate)
    (hfail : fate a = ArticleFate.restored false ∨
      fate a = ArticleFate.openExn) :
    (restore_articles (a :: b :: rest) true fate).1 = [] ∧
    ∀ x ∈ (restore_articles (a :: b :: rest) true fate).2, x = a := by
  rcases hfail with h | h <;> simp [restore_articles, h]

theorem c5_fail_fast_probe_witness :
    (restore_articles [1, 2] true (fun n =>
      if n = 1 then ArticleFate.restored false
      else ArticleFate.restored true)).1 = [] ∧
    ∀ x ∈ (restore_articles [1, 2] true (fun n =>
      if n = 1 then ArticleFate.restored false
      else ArticleFate.restored true)).2, x = 1 :=
  c5_fail_fast_probe 1 2 [] (fun n =>
    if n = 1 then ArticleFate.restored false else ArticleFate.restored true)
    (Or.inl (by decide))

/-- C8: User-segment lookup: a successful standard response (status 200,
non-empty list) yields `pickSegment` of that list, and `pickSegment`
returns the id of the first segment whose lower-cased name is one of
everyone, all, signed-in users when such a segment exists, else the
first segment's id; the guide endpoint serves the same way when the
standard one yields nothing; and whenever both endpoints yield nothing
or a request raises, the configured default is returned (the function is
total, so nothing propagates). -/
theorem c8_user_segment_fallback (d : Option Nat) :
    (∀ guide c segs, c = 200 → segs ≠ [] →
       get_user_segments (ListOutcome.resp c segs) guide d =
         some (pickSegment segs)) ∧
    (∀ c1 segs1 c2 segs2, (c1 ≠ 200 ∨ segs1 = []) → c2 = 200 → segs2 ≠ [] →
       get_user_segments (ListOutcome.resp c1 segs1)
         (ListOutcome.resp c2 segs2) d = some (pickSegment segs2)) ∧
    (∀ (segs : List Segment) (s : Segment),
       segs.find? isPreferredSegment = some s → pickSegment segs = s.id) ∧
    (∀ (segs : List Segment) (hd : Segment),
       segs.find? isPreferredSegment = none → segs.head? = some hd →
       pickSegment segs = hd.id) ∧
    (∀ segs : List Segment, (∃ s ∈ segs, isPreferredSegment s = true) →
       (segs.find? isPreferredSegment).isSome = true) ∧
    (∀ guide, get_user_segments ListOutcome.exn guide d = d) ∧
    (∀ c1 segs1, (c1 ≠ 200 ∨ segs1 = []) →
       get_user_segments (ListOutcome.resp c1 segs1) ListOutcome.exn d = d) ∧
    (∀ c1 segs1 c2 segs2, (c1 ≠ 200 ∨ segs1 = []) → (c2 ≠ 200 ∨ segs2 = []) →
       get_user_segments (ListOutcome.resp c1 segs1)
         (ListOutcome.resp c2 segs2) d = d) := by
  have hne2 : ∀ segs : List Segment, segs ≠ [] → ¬ segs.isEmpty = true := by
    intro segs h
    cases segs with
    | nil => exact absurd rfl h
    | cons x xs => simp [List.isEmpty]
  have hcond : ∀ (c : Nat) (segs : List Segment), (c ≠ 200 ∨ segs = []) →
      ¬ (c = 200 ∧ ¬ segs.isEmpty = true) := by
    intro c segs h
    rintro ⟨rfl, hne⟩
    rcases h with h | rfl
    · exact h rfl
    · exact hne rfl
  refine ⟨?_, ?_, ?_, ?_, ?_, ?_, ?_, ?_⟩
  · intro guide c segs hc hne
    subst hc
    simp only [get_user_segments]
    rw [if_pos ⟨trivial, hne2 segs hne⟩]
  · intro c1 segs1 c2 segs2 h1 hc2 hne
    subst hc2
    simp only [get_user_segments]
    rw [if_neg (hcond c1 segs1 h1), if_pos ⟨trivial, hne2 segs2 hne⟩]
  · intro segs s h
    simp [pickSegment, h]
  · intro segs hd h hh
    simp [pickSegment, h, hh]
  · intro segs h
    rw [List.find?_isSome]
    exact h
  · intro guide
    rfl
  · intro c1 segs1 h1
    simp only [get_user_segments]
    rw [if_neg (hcond c1 segs1 h1)]
  · intro c1 segs1 c2 segs2 h1 h2
    simp only [get_user_segments]
    rw [if_neg (hcond c1 segs1 h1), if_neg (hcond c2 segs2 h2)]

theorem c8_user_segment_fallback_witness :
    get_user_segments (ListOutcome.resp 200
      [⟨3, "Agents"⟩, ⟨4, "Everyone"⟩]) ListOutcome.exn (some 9) =
      some (pickSegment [⟨3, "Agents"⟩, ⟨4, "Everyone"⟩]) :=
  (c8_user_segment_fallback (some 9)).1 ListOutcome.exn 200
    [⟨3, "Agents"⟩, ⟨4, "Everyone"⟩] rfl (by decide)

/-- C10: After `load_config`, every target credential left empty by the
config file and the environment is replaced by the corresponding source
credential (a non-empty target credential is kept); in particular an
all-empty target becomes an exact copy of the source and, when the
source credentials are all non-empty, passes restore-mode validation. -/
theorem c10_target_defaults (source target : Credentials) :
    ((target.zendesk_api_token = "" →
        (applyTargetDefaults source target).zendesk_api_token =
          source.zendesk_api_token) ∧
     (target.zendesk_api_token ≠ "" →
        (applyTargetDefaults source target).zendesk_api_token =
          target.zendesk_api_token)) ∧
    ((target.zendesk_user_email = "" →
        (applyTargetDefaults source target).zendesk_user_email =
          source.zendesk_user_email) ∧
     (target.zendesk_user_email ≠ "" →
        (applyTargetDefaults source target).zendesk_user_email =
          target.zendesk_user_email)) ∧
    ((target.zendesk_subdomain = "" →
        (applyTargetDefaults source target).zendesk_subdomain =
          source.zendesk_subdomain) ∧
     (target.zendesk_subdomain ≠ "" →
        (applyTargetDefaults source target).zendesk_subdomain =
          target.zendesk_subdomain)) ∧
    (target = ⟨"", "", ""⟩ → applyTargetDefaults source target = source) ∧
    (target = ⟨"", "", ""⟩ → source.zendesk_api_token ≠ "" →
      source.zendesk_user_email ≠ "" → source.zendesk_subdomain ≠ "" →
      validateRestoreTarget (applyTargetDefaults source target) = true) := by
  refine ⟨⟨?_, ?_⟩, ⟨?_, ?_⟩, ⟨?_, ?_⟩, ?_, ?_⟩
  · intro h
    simp [applyTargetDefaults, h]
  · intro h
    simp [applyTargetDefaults, h]
  · intro h
    simp [applyTargetDefaults, h]
  · intro h
    simp [applyTargetDefaults, h]
  · intro h
    simp [applyTargetDefaults, h]
  · intro h
    simp [applyTargetDefaults, h]
  · intro h
    subst h
    cases source
    simp [applyTargetDefaults]
  · intro h h1 h2 h3
    subst h
    simp [applyTargetDefaults, validateRestoreTarget, bne_iff_ne, h1, h2, h3]

theorem c10_target_defaults_witness :
    validateRestoreTarget (applyTargetDefaults ⟨"tok", "mail", "sub"⟩
      ⟨"", "", ""⟩) = true :=
  (c10_target_defaults ⟨"tok", "mail", "sub"⟩ ⟨"", "", ""⟩).2.2.2.2 rfl
    (by decide) (by decide) (by decide)

end ZdHcBu
